import Mathlib

/-!
# Verification of the Rant value model and runtime against its specification

This development shallowly embeds the parts of the `rant` crate that the
claims under scrutiny talk about:

* `src/value.rs` — the dynamic value type `RantValue` with its arithmetic
  operators (`Add`, `Sub`, `Mul`, `Div`, `Rem`, `Neg`), `concat`, `len`,
  `is_indexable`, and the display routine used by string coercion;
* `src/lang.rs` — access-path components with `dynamic_exprs`, `Varity`
  with `is_valid_order`, argument spread modes and `TemporalSpreadState`;
* `src/runtime/mod.rs` — the argument-evaluation discipline of
  `Intent::Invoke` and `Intent::InvokePipeStep`, the dynamic-getter
  expression pump of `Intent::BuildDynamicGetter`, the arity validation
  and parameter binding of `VM::call_func`, and the overflow-checked
  frame pushes (`push_frame`, `push_frame_flavored`,
  `push_native_call_frame`);
* `src/compiler/parser.rs` — the varity diagnostics of
  `parse_func_params` and the pipe-value fallback insertion of
  `parse_func_access`.

Machine floats (`f64`) appear in the value type but none of the verified
properties depend on float arithmetic, so the embedding is parameterized
by an arbitrary carrier `F` together with the operations the source
invokes on it (`ExternModel`).  Every theorem therefore holds for *any*
float semantics; witnesses instantiate `F := Unit`.

Rust `i64` arithmetic is modelled on `Int` with explicit saturation at
the 64-bit bounds where the source uses `saturating_*` operations.
-/

namespace Rant

/-- Rust's 64-bit signed minimum, `i64::MIN`. -/
def I64_MIN : Int := -(2 ^ 63)

/-- Rust's 64-bit signed maximum, `i64::MAX`. -/
def I64_MAX : Int := 2 ^ 63 - 1

/-- Saturation of an integer result into the `i64` range, as performed by
Rust's `saturating_add` / `saturating_sub` / `saturating_mul`. -/
def sat64 (n : Int) : Int := max I64_MIN (min I64_MAX n)

/-- `i64::saturating_add`. -/
def saturating_add (a b : Int) : Int := sat64 (a + b)

/-- `i64::saturating_sub`. -/
def saturating_sub (a b : Int) : Int := sat64 (a - b)

/-- `i64::saturating_mul`. -/
def saturating_mul (a b : Int) : Int := sat64 (a * b)

/-- `i64::saturating_neg`. -/
def saturating_neg (a : Int) : Int := sat64 (-a)

/-- Rust integer division `/` on `i64` truncates toward zero. -/
def i64Div (a b : Int) : Int := Int.tdiv a b

/-- Rust integer remainder `%` on `i64` (sign follows the dividend). -/
def i64Rem (a b : Int) : Int := Int.tmod a b

/-- `util::clamp`, as used by `Mul` for string repetition counts. -/
def rustClamp (v lo hi : Int) : Int := max lo (min hi v)

/-- `bi64`: bool-to-`i64` conversion (`true ↦ 1`, `false ↦ 0`). -/
def bi64 (b : Bool) : Int := if b then 1 else 0

/-- Modelled from the spec: `RantRange` ("lazy integer range with step")
is defined in the crate root, which is not among the provided sources;
only its field layout and the existence of `len` matter here. -/
structure RantRange where
  start : Int
  stop : Int
  step : Int
deriving DecidableEq, Repr

/-- Modelled from the spec: the element count of a lazy integer range.
No verified property depends on the exact formula. -/
def RantRange.len (r : RantRange) : Nat :=
  if r.step = 0 then 0
  else ((r.stop - r.start).natAbs + (r.step.natAbs - 1)) / r.step.natAbs

/-- The operations the value code invokes on machine floats and on the
externally-defined types (`RantRange` display, function/selector debug
display), collected as an abstract parameter.  The claims hold for any
instantiation. -/
structure ExternModel (F : Type) where
  fadd : F → F → F
  fsub : F → F → F
  fmul : F → F → F
  fdiv : F → F → F
  frem : F → F → F
  fneg : F → F
  /-- `f64::NAN`, the result `RantValue::nan()` wraps. -/
  fnan : F
  /-- `bf64`: bool-to-`f64` conversion. -/
  bf64 : Bool → F
  /-- the `as f64` / `cast::f64` integer-to-float conversion. -/
  ofInt : Int → F
  /-- `Display` for `f64`. -/
  fshow : F → String
  /-- `Display` for `RantRange` (defined in the crate root). -/
  rangeShow : RantRange → String
  /-- the `[function({:?})]` display of a function handle. -/
  funcShow : Nat → String

/-- `RantValue` (src/value.rs): the dynamically-typed Rant value.
Collection handles (`Rc<RefCell<…>>`) are modelled by their contents;
function and selector handles are opaque numeric identifiers. -/
inductive RantValue (F : Type) where
  /-- A Rant value of type `string`. -/
  | str (s : String)
  /-- A Rant value of type `float`. -/
  | float (f : F)
  /-- A Rant value of type `int`. -/
  | int (n : Int)
  /-- A Rant value of type `bool`. -/
  | boolean (b : Bool)
  /-- A Rant value of type `function` (opaque handle). -/
  | function (id : Nat)
  /-- A Rant value of type `list`. -/
  | list (xs : List (RantValue F))
  /-- A Rant value of type `map` (insertion-ordered entries). -/
  | map (entries : List (String × RantValue F))
  /-- A Rant value of type `range`. -/
  | range (r : RantRange)
  /-- A Rant value of type `special` (opaque handle). -/
  | special (id : Nat)
  /-- The Rant unit value of type `empty`. -/
  | empty

/-- `ValueError` (src/value.rs): error produced by a value operator. -/
inductive ValueError where
  | invalidConversion (fromType toType : String) (message : Option String)
  | divideByZero
  | overflow
deriving DecidableEq, Repr

namespace RantValue

variable {F : Type}

/-- `RantValue::len` (src/value.rs). String length is modelled as
character count (the crate counts graphemes via the external
`RantString` type); no verified property depends on the difference. -/
def len : RantValue F → Nat
  | .str s => s.length
  | .list xs => xs.length
  | .range r => r.len
  | .map entries => entries.length
  | _ => 1

/-- `RantValue::is_indexable` (src/value.rs). -/
def is_indexable : RantValue F → Bool
  | .str _ => true
  | .list _ => true
  | .range _ => true
  | _ => false

/-- `MAX_DISPLAY_STRING_DEPTH` (src/value.rs). -/
def MAX_DISPLAY_STRING_DEPTH : Nat := 4

/-- `get_display_string` (src/value.rs), structurally recursive on the
depth budget; map entries are displayed in insertion order (the source
iterates a hash map, whose order is unspecified). -/
def get_display_string (M : ExternModel F) : Nat → RantValue F → String
  | _, .str s => s
  | _, .float f => M.fshow f
  | _, .int i => toString i
  | _, .boolean b => if b then "@true" else "@false"
  | _, .function id => M.funcShow id
  | 0, .list _ => "(" ++ "..." ++ ")"
  | Nat.succ d, .list xs =>
      "(" ++ String.intercalate "; " (xs.map (get_display_string M d)) ++ ")"
  | 0, .map _ => "@(" ++ "..." ++ ")"
  | Nat.succ d, .map entries =>
      "@(" ++ String.intercalate "; "
        (entries.map (fun kv => kv.1 ++ " = " ++ get_display_string M d kv.2)) ++ ")"
  | _, .special _ => "[special]"
  | _, .range r => M.rangeShow r
  | d, .empty => if d < MAX_DISPLAY_STRING_DEPTH then "~" else ""

/-- The `Display` implementation for `RantValue` (src/value.rs), used by
`to_string()` in the concatenation arms. -/
def toDisplayString (M : ExternModel F) (v : RantValue F) : String :=
  get_display_string M MAX_DISPLAY_STRING_DEPTH v

/-- `RantValue::concat` (src/value.rs lines 215–234), arm for arm. -/
def concat (M : ExternModel F) : RantValue F → RantValue F → RantValue F
  | .empty, .empty => .empty
  | lhs, .empty => lhs
  | .empty, rhs => rhs
  | .int a, .int b => .int (saturating_add a b)
  | .int a, .float b => .float (M.fadd (M.ofInt a) b)
  | .int a, .boolean b => .int (saturating_add a (bi64 b))
  | .float a, .float b => .float (M.fadd a b)
  | .float a, .int b => .float (M.fadd a (M.ofInt b))
  | .float a, .boolean b => .float (M.fadd a (M.bf64 b))
  | .str a, .str b => .str (a ++ b)
  | .str a, rhs => .str (a ++ toDisplayString M rhs)
  | .boolean a, .boolean b => .boolean (a || b)
  | .boolean a, .int b => .int (saturating_add (bi64 a) b)
  | .boolean a, .float b => .float (M.fadd (M.bf64 a) b)
  | .list a, .list b => .list (a ++ b)
  | lhs, rhs => .str (toDisplayString M lhs ++ toDisplayString M rhs)

/-- `impl Add for RantValue` (src/value.rs lines 820–842), arm for arm. -/
def add (M : ExternModel F) : RantValue F → RantValue F → RantValue F
  | .empty, .empty => .empty
  | lhs, .empty => lhs
  | .empty, rhs => rhs
  | .int a, .int b => .int (saturating_add a b)
  | .int a, .float b => .float (M.fadd (M.ofInt a) b)
  | .int a, .boolean b => .int (saturating_add a (bi64 b))
  | .float a, .float b => .float (M.fadd a b)
  | .float a, .int b => .float (M.fadd a (M.ofInt b))
  | .float a, .boolean b => .float (M.fadd a (M.bf64 b))
  | .str a, .str b => .str (a ++ b)
  | .str a, rhs => .str (a ++ toDisplayString M rhs)
  | .boolean a, .boolean b => .int (bi64 a + bi64 b)
  | .boolean a, .int b => .int (saturating_add (bi64 a) b)
  | .boolean a, .float b => .float (M.fadd (M.bf64 a) b)
  | .list a, .list b => .list (a ++ b)
  | lhs, rhs => .str (toDisplayString M lhs ++ toDisplayString M rhs)

/-- `impl Neg for RantValue` (src/value.rs lines 808–818). -/
def neg (M : ExternModel F) : RantValue F → RantValue F
  | .int a => .int (saturating_neg a)
  | .float a => .float (M.fneg a)
  | .boolean a => .int (-(bi64 a))
  | v => v

/-- `impl Sub for RantValue` (src/value.rs lines 844–863). -/
def sub (M : ExternModel F) : RantValue F → RantValue F → RantValue F
  | .empty, .empty => .empty
  | lhs, .empty => lhs
  | .empty, rhs => neg M rhs
  | .int a, .int b => .int (saturating_sub a b)
  | .int a, .float b => .float (M.fsub (M.ofInt a) b)
  | .int a, .boolean b => .int (a - bi64 b)
  | .float a, .float b => .float (M.fsub a b)
  | .float a, .int b => .float (M.fsub a (M.ofInt b))
  | .float a, .boolean b => .float (M.fsub a (M.bf64 b))
  | .boolean a, .boolean b => .int (bi64 a - bi64 b)
  | .boolean a, .int b => .int (saturating_sub (bi64 a) b)
  | .boolean a, .float b => .float (M.fsub (M.bf64 a) b)
  | _, _ => .float M.fnan

/-- `impl Mul for RantValue` (src/value.rs lines 865–883). -/
def mul (M : ExternModel F) : RantValue F → RantValue F → RantValue F
  | .empty, _ => .empty
  | _, .empty => .empty
  | .int a, .int b => .int (saturating_mul a b)
  | .int a, .float b => .float (M.fmul (M.ofInt a) b)
  | .int a, .boolean b => .int (a * bi64 b)
  | .float a, .float b => .float (M.fmul a b)
  | .float a, .int b => .float (M.fmul a (M.ofInt b))
  | .float a, .boolean b => .float (M.fmul a (M.bf64 b))
  | .boolean a, .boolean b => .int (bi64 a * bi64 b)
  | .boolean a, .int b => .int (bi64 a * b)
  | .boolean a, .float b => .float (M.fmul (M.bf64 a) b)
  | .str a, .int b => .str (String.join (List.replicate (rustClamp b 0 I64_MAX).toNat a))
  | _, _ => .float M.fnan

/-- `impl Div for RantValue` (src/value.rs lines 885–903).  Note the
`(Empty, _) | (_, Empty)` arm precedes the divide-by-zero check. -/
def div (M : ExternModel F) : RantValue F → RantValue F → Except ValueError (RantValue F)
  | .empty, _ => .ok .empty
  | _, .empty => .ok .empty
  | _, .int 0 => .error .divideByZero
  | _, .boolean false => .error .divideByZero
  | .int a, .int b => .ok (.int (i64Div a b))
  | .int a, .float b => .ok (.float (M.fdiv (M.ofInt a) b))
  | .int a, .boolean b => .ok (.int (i64Div a (bi64 b)))
  | .float a, .float b => .ok (.float (M.fdiv a b))
  | .float a, .int b => .ok (.float (M.fdiv a (M.ofInt b)))
  | .float a, .boolean b => .ok (.float (M.fdiv a (M.bf64 b)))
  | .boolean a, .boolean b => .ok (.int (i64Div (bi64 a) (bi64 b)))
  | .boolean a, .int b => .ok (.int (i64Div (bi64 a) b))
  | .boolean a, .float b => .ok (.float (M.fdiv (M.bf64 a) b))
  | _, _ => .ok (.float M.fnan)

/-- `impl Rem for RantValue` (src/value.rs lines 905–917). -/
def rem (M : ExternModel F) : RantValue F → RantValue F → Except ValueError (RantValue F)
  | .empty, _ => .ok .empty
  | _, .empty => .ok .empty
  | _, .int 0 => .error .divideByZero
  | _, .boolean false => .error .divideByZero
  | .int a, .int b => .ok (.int (i64Rem a b))
  | .int a, .float b => .ok (.float (M.frem (M.ofInt a) b))
  | .int a, .boolean b => .ok (.int (i64Rem a (bi64 b)))
  | _, _ => .ok (.float M.fnan)

/-- Whether both operands are booleans — the single case where `concat`
and `Add` disagree. -/
def isBoolPair : RantValue F → RantValue F → Bool
  | .boolean _, .boolean _ => true
  | _, _ => false

end RantValue

/-! ## src/lang.rs — access paths, varity, spread modes -/

/-- `SliceIndex` (src/lang.rs): a single bound of a slice expression.
`σ` stands for `Rc<Sequence>` handles, which are opaque here. -/
inductive SliceIndex (σ : Type) where
  | static (i : Int)
  | dynamic (expr : σ)

/-- `SliceExpr` (src/lang.rs): an unevaluated slice.  The Rust variants
`From`/`To` are rendered `fromBound`/`toBound` (`from` is reserved). -/
inductive SliceExpr (σ : Type) where
  | full
  | fromBound (i : SliceIndex σ)
  | toBound (i : SliceIndex σ)
  | between (l r : SliceIndex σ)

/-- `AccessPathComponent` (src/lang.rs). -/
inductive AccessPathComponent (σ : Type) where
  | name (id : String)
  | index (i : Int)
  | slice (s : SliceExpr σ)
  | dynamicKey (expr : σ)
  | anonymousValue (expr : σ)

/-- `AccessPath::dynamic_exprs` (src/lang.rs lines 275–293): the dynamic
expressions of a path in reader order, left to right, with a
fully-dynamic slice contributing its `from` bound before its `to`
bound. -/
def dynamic_exprs {σ : Type} : List (AccessPathComponent σ) → List σ
  | [] => []
  | c :: rest =>
    (match c with
     | .dynamicKey expr => [expr]
     | .anonymousValue expr => [expr]
     | .slice (.fromBound (.dynamic expr)) => [expr]
     | .slice (.toBound (.dynamic expr)) => [expr]
     | .slice (.between (.static _) (.dynamic expr)) => [expr]
     | .slice (.between (.dynamic expr) (.static _)) => [expr]
     | .slice (.between (.dynamic expr_from) (.dynamic expr_to)) => [expr_from, expr_to]
     | _ => []) ++ dynamic_exprs rest

/-- `Varity` (src/lang.rs). -/
inductive Varity where
  | required
  | optional
  | variadicStar
  | variadicPlus
deriving DecidableEq, Repr

/-- `Varity::is_valid_order` (src/lang.rs lines 484–494). -/
def Varity.is_valid_order : Varity → Varity → Bool
  | .required, .required => true
  | .required, .optional => true
  | .required, .variadicStar => true
  | .required, .variadicPlus => true
  | .optional, .optional => true
  | .optional, .variadicStar => true
  | _, _ => false

/-- `Varity::is_variadic` (src/lang.rs lines 497–500). -/
def Varity.is_variadic : Varity → Bool
  | .variadicStar => true
  | .variadicPlus => true
  | _ => false

/-- `ArgumentSpreadMode` (src/lang.rs). -/
inductive ArgumentSpreadMode where
  | noSpread
  | parametric
  | temporal (label : Nat)
deriving DecidableEq, Repr

/-- Whether the spread mode is a temporal spread. -/
def ArgumentSpreadMode.isTemporal : ArgumentSpreadMode → Bool
  | .temporal _ => true
  | _ => false

/-- `ArgumentExpr` (src/lang.rs): a function-call argument expression. -/
structure ArgumentExpr (σ : Type) where
  expr : σ
  spread_mode : ArgumentSpreadMode

/-- `TemporalSpreadState` (src/lang.rs lines 576–581).  The
`arg_labels` hash map is modelled as an association list (argument
indices are inserted at most once, in increasing order). -/
structure TemporalSpreadState where
  counters : List (Nat × Nat)
  arg_labels : List (Nat × Nat)
deriving DecidableEq, Repr

/-- `&args[i]` in `TemporalSpreadState::new`; the VM always supplies at
least as many argument values as expressions, so the default is never
taken there. -/
def valueAt {F : Type} (args : List (RantValue F)) (i : Nat) : RantValue F :=
  (args.get? i).getD .empty

/-- One iteration of the `for (i, expr)` loop of
`TemporalSpreadState::new` (src/lang.rs lines 589–611). -/
def tssStep {F σ : Type} (args : List (RantValue F)) (st : TemporalSpreadState)
    (i : Nat) (expr : ArgumentExpr σ) : TemporalSpreadState :=
  match expr.spread_mode with
  | .temporal label =>
    let arg := valueAt args i
    let arg_labels := st.arg_labels ++ [(i, label)]
    if st.counters.length ≤ label then
      let counter_size := if arg.is_indexable then arg.len else 0
      { counters := st.counters ++ [(0, counter_size)], arg_labels }
    else
      if arg.is_indexable then
        let p := st.counters.getD label (0, 0)
        { counters := st.counters.set label (p.1, min arg.len p.2), arg_labels }
      else
        { st with arg_labels }
  | _ => st

/-- The enumerated loop of `TemporalSpreadState::new`, carrying the
running argument index. -/
def tssNewAux {F σ : Type} (args : List (RantValue F)) :
    List (ArgumentExpr σ) → Nat → TemporalSpreadState → TemporalSpreadState
  | [], _, st => st
  | ae :: rest, i, st => tssNewAux args rest (i + 1) (tssStep args st i ae)

/-- `TemporalSpreadState::new` (src/lang.rs lines 586–616). -/
def TemporalSpreadState.new {F σ : Type} (arg_exprs : List (ArgumentExpr σ))
    (args : List (RantValue F)) : TemporalSpreadState :=
  tssNewAux args arg_exprs 0 ⟨[], []⟩

/-- `TemporalSpreadState::is_empty` (src/lang.rs lines 626–628). -/
def TemporalSpreadState.is_empty (st : TemporalSpreadState) : Bool :=
  st.counters.isEmpty || st.counters.all (fun p => p.2 == 0)

/-! ## src/runtime — error kinds, intents, frame pushes -/

/-- Modelled from the spec: the runtime error kinds of §7.  The enum
itself lives in `src/runtime/error.rs`, which is not among the provided
sources; `src/runtime/mod.rs` names these variants. -/
inductive RuntimeErrorType where
  | stackOverflow
  | stackUnderflow
  | argumentMismatch
  | argumentError
  | cannotInvokeValue
  | valueError (e : ValueError)
  | indexError
  | keyError
  | sliceError
  | controlFlowError
  | invalidOperation
  | internalError
deriving DecidableEq, Repr

/-- The temporal branch of `Intent::Invoke` (src/runtime/mod.rs lines
382–393): build a `TemporalSpreadState` from the evaluated arguments
and queue a `CallTemporal` intent unless the state is empty.  `none`
means no `CallTemporal` intent is queued, so the target function is
called zero times; `some st` means a `CallTemporal` intent carrying
`st` is queued, and its handler unconditionally performs a call. -/
def invokeTemporal {F σ : Type} (arg_exprs : List (ArgumentExpr σ))
    (args : List (RantValue F)) : Option TemporalSpreadState :=
  let temporal_state := TemporalSpreadState.new arg_exprs args
  if temporal_state.is_empty then none else some temporal_state

/-- The argument-evaluation schedule of `Intent::Invoke`
(src/runtime/mod.rs lines 341–355): with `arg_eval_count` arguments
already evaluated, the next frame pushed is for
`arg_exprs[len - arg_eval_count - 1]`.  Returns the argument
expressions in the order their frames are pushed. -/
def invokeEvalSeq {A : Type} (arg_exprs : List A) (arg_eval_count : Nat) : List A :=
  if h : arg_eval_count < arg_exprs.length then
    arg_exprs.get ⟨arg_exprs.length - arg_eval_count - 1, by omega⟩ ::
      invokeEvalSeq arg_exprs (arg_eval_count + 1)
  else []
termination_by arg_exprs.length - arg_eval_count

/-- Completion of one argument frame pushes its value onto the value
stack (head = top of stack); the frames of `order` run first to last. -/
def pushEvalResults {A V : Type} (evalf : A → V) (order : List A) (stack : List V) : List V :=
  order.foldl (fun st e => evalf e :: st) stack

/-- In-place parametric-spread expansion applied to each popped
argument value (src/runtime/mod.rs lines 359–371). -/
def spreadExpand {F : Type} (mode : ArgumentSpreadMode) (v : RantValue F) : List (RantValue F) :=
  match mode, v with
  | .parametric, .list elems => elems
  | _, v => [v]

/-- The post-evaluation popping loop of `Intent::Invoke`
(src/runtime/mod.rs lines 357–371): one `pop_val` per argument
expression, expanding parametric list arguments in place.  Returns the
collected positional arguments and the remaining value stack. -/
def popArgsSpread {F : Type} :
    List ArgumentSpreadMode → List (RantValue F) →
    Except RuntimeErrorType (List (RantValue F) × List (RantValue F))
  | [], stack => .ok ([], stack)
  | _ :: _, [] => .error .stackUnderflow
  | mode :: rest, v :: stack =>
    match popArgsSpread rest stack with
    | .error e => .error e
    | .ok (vs, remaining) => .ok (spreadExpand mode v ++ vs, remaining)

/-- The pending-expression pump of `Intent::BuildDynamicGetter`
(src/runtime/mod.rs lines 265–280): each activation performs
`pending_exprs.pop()` — removing the *last* element of the pending
`Vec` — and pushes a `DynamicKeyExpression` frame for it.  Returns the
expressions in the order their frames are pushed.
(`Intent::BuildDynamicSetter`, lines 662–676, pops identically.) -/
def buildDynGetterOrder {σ : Type} (pending : List σ) : List σ :=
  match h : pending.getLast? with
  | none => []
  | some e => e :: buildDynGetterOrder pending.dropLast
termination_by pending.length
decreasing_by
  cases pending with
  | nil => simp at h
  | cons a as => simp

/-- The dynamic-key collection loop of `VM::get_value`
(src/runtime/mod.rs lines 1246–1249): `dynamic_key_count` values are
popped off the value stack and then drained front-first, so the path
dereference consumes them in pop order. -/
def popN {V : Type} : Nat → List V → List V
  | 0, _ => []
  | _ + 1, [] => []
  | n + 1, v :: rest => v :: popN n rest

/-! ## Pipe steps (parser fallback and `Intent::InvokePipeStep`) -/

/-- The body of a pipe-step argument expression: either the explicit
pipe-value node `Rst::PipeValue` inserted by the parser, or a
user-written expression. -/
inductive PipeExpr (σ : Type) where
  | pipeValue
  | user (e : σ)

/-- A pipe-step argument expression with its spread mode. -/
structure PipeArgExpr (σ : Type) where
  expr : PipeExpr σ
  spread_mode : ArgumentSpreadMode

/-- `fallback_pipe!` (src/compiler/parser.rs lines 1359–1369): if the
step is not the first of the chain (`calls.len() > 0`) and its
user-supplied arguments never read the pipe value, an explicit
`Rst::PipeValue` argument is inserted at position 0. -/
def fallback_pipe {σ : Type} (calls_len : Nat) (is_pipeval_used : Bool)
    (func_args : List (PipeArgExpr σ)) : List (PipeArgExpr σ) :=
  if 0 < calls_len && !is_pipeval_used then
    ⟨.pipeValue, .noSpread⟩ :: func_args
  else
    func_args

/-- Evaluation of one pipe-step argument expression inside its
`ArgumentExpression` frame: `def_pipeval` binds `PIPE_VALUE_NAME` to
the prior step's result `pv` before the frame runs, and
`Rst::PipeValue` (src/runtime/mod.rs lines 947–950) reads it back;
user expressions evaluate through the abstract `evalf`. -/
def evalPipeArg {F σ : Type} (evalf : σ → RantValue F) (pv : RantValue F) :
    PipeExpr σ → RantValue F
  | .pipeValue => pv
  | .user e => evalf e

/-! ## `VM::call_func` (src/runtime/mod.rs lines 1037–1129) -/

/-- `Parameter` (src/lang.rs). -/
structure Parameter (σ : Type) where
  name : String
  varity : Varity
  default_value_expr : Option σ

/-- `Parameter::is_optional` (src/lang.rs lines 701–704). -/
def Parameter.is_optional {σ : Type} (p : Parameter σ) : Bool :=
  match p.varity with
  | .optional => true
  | _ => false

/-- The signature data of `RantFunction` used by `VM::call_func`.  The
struct itself is defined in the crate root (not among the provided
sources); the spec (§3) fixes these fields: body, minimum required-arg
count, index of the first variadic parameter (equal to the parameter
count if none), and the parameter list. -/
structure RantFunction (σ : Type) where
  min_arg_count : Nat
  vararg_start_index : Nat
  params : List (Parameter σ)

/-- Modelled from the spec: `RantFunction::is_variadic` lives in the
crate root.  Per §3, the variadic start index equals the parameter
count exactly when there is no variadic parameter. -/
def RantFunction.is_variadic {σ : Type} (f : RantFunction σ) : Bool :=
  f.vararg_start_index < f.params.length

/-- The parameter-binding loop of `VM::call_func` (src/runtime/mod.rs
lines 1089–1116): walks the parameter list with the running index `i`
and the remaining non-variadic argument values `navs`.  A variadic
parameter takes the collected vararg list (`Option::take`), a
non-variadic parameter consumes the next positional value; a missing
optional with a default queues `(expr, i)` for `CreateDefaultArgs`, a
missing optional without a default binds nothing, and any other
missing parameter binds the default `empty` value
(`unwrap_or_default`). -/
def bindParams {F σ : Type} (vararg : Option (RantValue F)) :
    List (Parameter σ) → Nat → List (RantValue F) →
    List (String × RantValue F) × List (σ × Nat)
  | [], _, _ => ([], [])
  | p :: ps, i, navs =>
    if p.varity.is_variadic then
      let rest := bindParams none ps (i + 1) navs
      ((p.name, vararg.getD .empty) :: rest.1, rest.2)
    else
      match navs with
      | [] =>
        if p.is_optional then
          match p.default_value_expr with
          | some e =>
            let rest := bindParams vararg ps (i + 1) []
            (rest.1, (e, i) :: rest.2)
          | none => bindParams vararg ps (i + 1) []
        else
          let rest := bindParams vararg ps (i + 1) []
          ((p.name, .empty) :: rest.1, rest.2)
      | v :: vs =>
        let rest := bindParams vararg ps (i + 1) vs
        ((p.name, v) :: rest.1, rest.2)

/-- `VM::call_func` (src/runtime/mod.rs lines 1037–1129), user-function
branch: validate the argument count against the signature, then split
the arguments at the variadic start index and bind the parameters.  On
success, returns the immediate parameter bindings together with the
queued default-argument expressions. -/
def call_func {F σ : Type} (f : RantFunction σ) (args : List (RantValue F)) :
    Except RuntimeErrorType (List (String × RantValue F) × List (σ × Nat)) :=
  let argc := args.length
  if f.is_variadic then
    if argc < f.min_arg_count then
      .error .argumentMismatch
    else
      let args_nonvariadic := args.take f.vararg_start_index
      let vararg := some (RantValue.list (args.drop f.vararg_start_index))
      .ok (bindParams vararg f.params 0 args_nonvariadic)
  else if argc < f.min_arg_count ∨ f.params.length < argc then
    .error .argumentMismatch
  else
    let args_nonvariadic := args.take f.vararg_start_index
    .ok (bindParams none f.params 0 args_nonvariadic)

/-! ## Varity diagnostics of `parse_func_params`
(src/compiler/parser.rs lines 1011–1172) -/

/-- The varity-related compile problems reported by
`parse_func_params`. -/
inductive VarityDiag where
  | multipleVariadicParams
  | invalidParamOrder (first second : Varity)
deriving DecidableEq, Repr

/-- The varity checks of the `read_params` loop (src/compiler/parser.rs
lines 1060–1072), carrying `last_varity` (initially `Required`) and
`is_sig_variadic` (initially `false`): a variadic parameter after an
earlier variadic reports `MultipleVariadicParams`, otherwise an
invalid (last, current) pair reports `InvalidParamOrder`. -/
def varityDiagsAux (last : Varity) (sig : Bool) : List Varity → List VarityDiag
  | [] => []
  | v :: rest =>
    let is_param_variadic := v.is_variadic
    (if sig && is_param_variadic then
      [VarityDiag.multipleVariadicParams]
    else if !(Varity.is_valid_order last v) then
      [VarityDiag.invalidParamOrder last v]
    else
      []) ++ varityDiagsAux v (sig || is_param_variadic) rest

/-- All varity diagnostics reported for a signature's parameter
varities, in reading order. -/
def varityDiags (vs : List Varity) : List VarityDiag :=
  varityDiagsAux Varity.required false vs

/-! ## Frame pushes and the stack-size invariant
(src/runtime/mod.rs lines 1509–1586) -/

/-- `MAX_STACK_SIZE` (src/runtime/mod.rs line 20). -/
def MAX_STACK_SIZE : Nat := 20000

/-- `StackFrameFlavor` (defined in src/runtime/stack.rs, which is not
among the provided sources; the flavor names are fixed by the spec §4.4
and by their uses in src/runtime/mod.rs). -/
inductive StackFrameFlavor where
  | original
  | functionBody
  | blockElement
  | repeaterElement
  | dynamicKeyExpression
  | argumentExpression
  | nativeCall
deriving DecidableEq, Repr

/-- A call-stack frame, reduced to the data the stack-size claims
depend on (the full `StackFrame` lives in src/runtime/stack.rs, not
among the provided sources; per spec §4.4 it additionally holds an
output buffer, an intent queue, locals and debug info). -/
structure StackFrameM (σ : Type) where
  callee : Option σ
  use_output : Bool
  flavor : StackFrameFlavor
deriving DecidableEq, Repr

/-- `VM::push_frame` (src/runtime/mod.rs lines 1524–1539): raises
`StackOverflow` when `call_stack.len() >= MAX_STACK_SIZE`, otherwise
pushes a frame with the default flavor.  The stack argument is
returned unchanged on error (head = top of stack). -/
def push_frame {σ : Type} (call_stack : List (StackFrameM σ)) (callee : σ)
    (use_output : Bool) : Except RuntimeErrorType (List (StackFrameM σ)) :=
  if MAX_STACK_SIZE ≤ call_stack.length then
    .error .stackOverflow
  else
    .ok (⟨some callee, use_output, .original⟩ :: call_stack)

/-- `VM::push_frame_flavored` (src/runtime/mod.rs lines 1571–1586):
same overflow check, frame tagged with the given flavor. -/
def push_frame_flavored {σ : Type} (call_stack : List (StackFrameM σ)) (callee : σ)
    (use_output : Bool) (flavor : StackFrameFlavor) :
    Except RuntimeErrorType (List (StackFrameM σ)) :=
  if MAX_STACK_SIZE ≤ call_stack.length then
    .error .stackOverflow
  else
    .ok (⟨some callee, use_output, flavor⟩ :: call_stack)

/-- `VM::push_native_call_frame` (src/runtime/mod.rs lines 1542–1567):
same overflow check; the pushed frame has no sequence and carries a
`RuntimeCall` intent (not modelled) with the given flavor. -/
def push_native_call_frame {σ : Type} (call_stack : List (StackFrameM σ))
    (use_output : Bool) (flavor : StackFrameFlavor) :
    Except RuntimeErrorType (List (StackFrameM σ)) :=
  if MAX_STACK_SIZE ≤ call_stack.length then
    .error .stackOverflow
  else
    .ok (⟨none, use_output, flavor⟩ :: call_stack)

/-- `VM::push_frame_unchecked` (src/runtime/mod.rs lines 1511–1520):
no overflow check.  Its only call site is `run_inner` (line 154), which
invokes it exactly once, on the empty call stack just created for the
run. -/
def push_frame_unchecked {σ : Type} (call_stack : List (StackFrameM σ)) (callee : σ)
    (use_output : Bool) (flavor : StackFrameFlavor) : List (StackFrameM σ) :=
  ⟨some callee, use_output, flavor⟩ :: call_stack

/-- The call stacks reachable by the VM's stack operations: the run
starts from the empty stack, `push_frame_unchecked` is only ever
applied to the empty stack (its sole call site), every other push is
overflow-checked, and frames may be popped. -/
inductive StackReachable (σ : Type) : List (StackFrameM σ) → Prop where
  | init : StackReachable σ []
  | root (callee : σ) (use_output : Bool) (flavor : StackFrameFlavor) :
      StackReachable σ (push_frame_unchecked [] callee use_output flavor)
  | checked {cs cs' : List (StackFrameM σ)} (callee : σ) (use_output : Bool) :
      StackReachable σ cs → push_frame cs callee use_output = .ok cs' →
      StackReachable σ cs'
  | checkedFlavored {cs cs' : List (StackFrameM σ)} (callee : σ) (use_output : Bool)
      (flavor : StackFrameFlavor) :
      StackReachable σ cs → push_frame_flavored cs callee use_output flavor = .ok cs' →
      StackReachable σ cs'
  | checkedNative {cs cs' : List (StackFrameM σ)} (use_output : Bool)
      (flavor : StackFrameFlavor) :
      StackReachable σ cs → push_native_call_frame cs use_output flavor = .ok cs' →
      StackReachable σ cs'
  | pop {f : StackFrameM σ} {cs : List (StackFrameM σ)} :
      StackReachable σ (f :: cs) → StackReachable σ cs

/-- A trivial instantiation of the external operations over `F := Unit`,
used to evaluate the theorems at concrete inputs. -/
def unitModel : ExternModel Unit where
  fadd _ _ := ()
  fsub _ _ := ()
  fmul _ _ := ()
  fdiv _ _ := ()
  frem _ _ := ()
  fneg _ := ()
  fnan := ()
  bf64 _ := ()
  ofInt _ := ()
  fshow _ := "0"
  rangeShow _ := "range"
  funcShow _ := "[function]"

/-! ## Theorems: the value model (claims C1, C3, C10) -/

/-- Claim C1 (counterexample): the claim says combining `Empty` with a
value under an arithmetic operator yields that value, but the `Mul`
implementation's first arm `(Empty, _) | (_, Empty) => Empty` makes
`Empty` absorbing: `Empty * 5` evaluates to `Empty`, not `5`. -/
theorem c1_mul_empty_absorbs_counterexample :
    RantValue.mul unitModel RantValue.empty (RantValue.int 5) = RantValue.empty ∧
    RantValue.mul unitModel RantValue.empty (RantValue.int 5) ≠ RantValue.int 5 :=
  ⟨rfl, fun h => nomatch h⟩

/-- Claim C1 (amended): `Empty` is a two-sided identity for addition
and for concatenation, and a right identity for subtraction with
`Empty - x = -x`; multiplication, division and modulo with `Empty` on
either side yield `Empty` (absorbing rather than identity). -/
theorem c1_empty_unit_rules (F : Type) (M : ExternModel F) (x : RantValue F) :
    RantValue.add M RantValue.empty x = x ∧
    RantValue.add M x RantValue.empty = x ∧
    RantValue.concat M RantValue.empty x = x ∧
    RantValue.concat M x RantValue.empty = x ∧
    RantValue.sub M x RantValue.empty = x ∧
    RantValue.sub M RantValue.empty x = RantValue.neg M x ∧
    RantValue.mul M RantValue.empty x = RantValue.empty ∧
    RantValue.mul M x RantValue.empty = RantValue.empty ∧
    RantValue.div M RantValue.empty x = .ok RantValue.empty ∧
    RantValue.div M x RantValue.empty = .ok RantValue.empty ∧
    RantValue.rem M RantValue.empty x = .ok RantValue.empty ∧
    RantValue.rem M x RantValue.empty = .ok RantValue.empty := by
  refine ⟨?_, ?_, ?_, ?_, ?_, ?_, ?_, ?_, ?_, ?_, ?_, ?_⟩ <;> cases x <;>
    simp [RantValue.add, RantValue.concat, RantValue.sub, RantValue.neg,
          RantValue.mul, RantValue.div, RantValue.rem]

/-- Claim C3 (counterexample): the claim says division and modulo
return `DivideByZero` whenever the divisor is the integer 0 or the
boolean false, but the `(Empty, _) | (_, Empty)` arm precedes the
divide-by-zero check, so `Empty / 0` and `Empty % 0` return
`Ok(Empty)` instead of the error. -/
theorem c3_empty_dividend_counterexample :
    RantValue.div unitModel RantValue.empty (RantValue.int 0) = .ok RantValue.empty ∧
    RantValue.rem unitModel RantValue.empty (RantValue.int 0) = .ok RantValue.empty ∧
    RantValue.div unitModel RantValue.empty (RantValue.int 0) ≠
      .error ValueError.divideByZero :=
  ⟨rfl, rfl, fun h => nomatch h⟩

/-- Claim C3 (amended): division and modulo return a `DivideByZero`
error exactly when the dividend is not `Empty` and the divisor is the
integer 0 or the boolean false (an `Empty` dividend short-circuits to
`Empty` before the divisor check; an `Empty` divisor likewise). -/
theorem c3_divide_by_zero_cases (F : Type) (M : ExternModel F) (a b : RantValue F) :
    (RantValue.div M a b = .error ValueError.divideByZero ↔
      (¬ a = RantValue.empty ∧ (b = RantValue.int 0 ∨ b = RantValue.boolean false))) ∧
    (RantValue.rem M a b = .error ValueError.divideByZero ↔
      (¬ a = RantValue.empty ∧ (b = RantValue.int 0 ∨ b = RantValue.boolean false))) := by
  obtain _ | _ | n | bb | _ | _ | _ | _ | _ | _ := b
  case int =>
    rcases n with (_ | n) | n <;> cases a <;>
      (simp only [RantValue.div, RantValue.rem] <;> simp <;> try omega)
  case boolean =>
    cases bb <;> cases a <;>
      (simp only [RantValue.div, RantValue.rem] <;> simp)
  all_goals cases a <;>
    (simp only [RantValue.div, RantValue.rem] <;> simp)

/-- Claim C10: `concat` and the `+` operator agree on every pair of
values except when both operands are booleans, where `concat` yields
the boolean disjunction while `+` yields the integer sum. -/
theorem c10_concat_add_agree (F : Type) (M : ExternModel F) (a b : RantValue F) :
    (RantValue.isBoolPair a b = false →
      RantValue.concat M a b = RantValue.add M a b) ∧
    (∀ x y : Bool,
      RantValue.concat M (RantValue.boolean x) (RantValue.boolean y) =
        RantValue.boolean (x || y) ∧
      RantValue.add M (RantValue.boolean x) (RantValue.boolean y) =
        RantValue.int (bi64 x + bi64 y)) := by
  constructor
  · intro h
    cases a <;> cases b <;>
      simp_all [RantValue.isBoolPair, RantValue.concat, RantValue.add]
  · intro x y
    exact ⟨rfl, rfl⟩

/-- Claim C10 (witness): the agreement instantiated at the integers 1
and 2, which are not a boolean pair. -/
theorem c10_concat_add_agree_witness :
    RantValue.concat unitModel (RantValue.int 1) (RantValue.int 2) =
      RantValue.add unitModel (RantValue.int 1) (RantValue.int 2) :=
  (c10_concat_add_agree Unit unitModel (RantValue.int 1) (RantValue.int 2)).1 rfl

/-! ## Helper lemmas for the VM evaluation-order claims -/

/-- Popping a `Vec` from the back until it is empty yields its elements
in reverse order. -/
theorem buildDynGetterOrder_eq_reverse {σ : Type} (l : List σ) :
    buildDynGetterOrder l = l.reverse := by
  induction l using List.reverseRecOn with
  | nil => simp [buildDynGetterOrder]
  | append_singleton xs x ih =>
    rw [buildDynGetterOrder]
    split
    · rename_i heq
      rw [List.getLast?_concat] at heq
      exact absurd heq (by simp)
    · rename_i e heq
      rw [List.getLast?_concat] at heq
      injection heq with heq
      subst heq
      simp [List.dropLast_concat, ih]

/-- Evaluating frames in the reverse of source order leaves the values
on the stack with the first source argument on top. -/
theorem pushEvalResults_reverse {A V : Type} (f : A → V) (l : List A) (st : List V) :
    pushEvalResults f l.reverse st = l.map f ++ st := by
  induction l generalizing st with
  | nil => rfl
  | cons a l ih =>
    have h := ih st
    simp only [pushEvalResults] at h ⊢
    rw [List.reverse_cons, List.foldl_append, h]
    simp

/-- Popping once per pushed value recovers the values in order. -/
theorem popN_length_append {V : Type} (l st : List V) :
    popN l.length (l ++ st) = l := by
  induction l with
  | nil => rfl
  | cons v l ih => simp [popN, ih]

/-- The `Invoke` argument schedule starting from `arg_eval_count = c`
covers the first `length - c` expressions, in reverse. -/
theorem invokeEvalSeq_eq_take {A : Type} :
    ∀ (d : Nat) (l : List A) (c : Nat), l.length - c = d →
      invokeEvalSeq l c = (l.take d).reverse := by
  intro d
  induction d with
  | zero =>
    intro l c h
    rw [invokeEvalSeq, dif_neg (by omega)]
    simp
  | succ n ih =>
    intro l c h
    have hc : c < l.length := by omega
    rw [invokeEvalSeq, dif_pos hc, ih l (c + 1) (by omega)]
    have hn : l.length - c - 1 = n := by omega
    have hnl : n < l.length := by omega
    simp only [List.get_eq_getElem, hn]
    rw [← List.take_concat_get l n hnl, List.concat_eq_append, List.reverse_append,
        List.reverse_singleton, List.singleton_append]

/-- The `Invoke` argument schedule evaluates the argument expressions in
reverse source order. -/
theorem invokeEvalSeq_zero {A : Type} (l : List A) :
    invokeEvalSeq l 0 = l.reverse := by
  rw [invokeEvalSeq_eq_take l.length l 0 (by omega)]
  simp

/-- Popping one value per argument expression off a stack that holds the
values in source order collects the spread-expanded arguments in
source order and leaves the rest of the stack intact. -/
theorem popArgsSpread_maps {F A : Type} (fm : A → ArgumentSpreadMode)
    (g : A → RantValue F) (l : List A) (st : List (RantValue F)) :
    popArgsSpread (l.map fm) (l.map g ++ st) =
      .ok (l.flatMap (fun a => spreadExpand (fm a) (g a)), st) := by
  induction l with
  | nil => rfl
  | cons a l ih => simp [popArgsSpread, ih]

/-! ## Theorems: dynamic path expressions (claim C2) -/

/-- Claim C2 (counterexample): for the path `a/{e1}/{e2}` — whose
`dynamic_exprs` enumeration is `[e1, e2]` in source order — the
`BuildDynamicGetter` pump pushes the frame for `e2` first; the leftmost
dynamic expression's frame does *not* run first. -/
theorem c2_eval_order_counterexample :
    dynamic_exprs [AccessPathComponent.name "a",
                   AccessPathComponent.dynamicKey (1 : Nat),
                   AccessPathComponent.dynamicKey (2 : Nat)] = [1, 2] ∧
    buildDynGetterOrder ([1, 2] : List Nat) = [2, 1] ∧
    buildDynGetterOrder ([1, 2] : List Nat) ≠ [1, 2] := by
  refine ⟨rfl, ?_, ?_⟩
  · rw [buildDynGetterOrder_eq_reverse]
    decide
  · rw [buildDynGetterOrder_eq_reverse]
    decide

/-- Claim C2 (amended): the VM evaluates the dynamic expressions of an
access path in *reverse* source order — each `BuildDynamicGetter` (and
`BuildDynamicSetter`) activation pops the rightmost pending expression
and runs its frame — and precisely because of this, popping the value
stack afterwards yields the evaluated results in source (left-to-right)
order for the `GetValue`/`SetValue` dereference to consume. -/
theorem c2_dynamic_expr_order (σ V : Type) (evalf : σ → V)
    (comps : List (AccessPathComponent σ)) (stack : List V) :
    buildDynGetterOrder (dynamic_exprs comps) = (dynamic_exprs comps).reverse ∧
    popN (dynamic_exprs comps).length
        (pushEvalResults evalf (buildDynGetterOrder (dynamic_exprs comps)) stack) =
      (dynamic_exprs comps).map evalf := by
  refine ⟨buildDynGetterOrder_eq_reverse _, ?_⟩
  rw [buildDynGetterOrder_eq_reverse, pushEvalResults_reverse]
  have h := popN_length_append ((dynamic_exprs comps).map evalf) stack
  simpa using h

/-! ## Theorems: temporal spread (claim C4) -/

/-- One step of `TemporalSpreadState::new` keeps every counter length
at zero, provided the argument it inspects (if temporally spread and
indexable) has length 0. -/
theorem tssStep_counters_zero {F σ : Type} (args : List (RantValue F))
    (st : TemporalSpreadState) (i : Nat) (ae : ArgumentExpr σ)
    (h : st.counters.all (fun p => p.2 == 0) = true)
    (hz : ae.spread_mode.isTemporal = true → (valueAt args i).is_indexable = true →
      (valueAt args i).len = 0) :
    (tssStep args st i ae).counters.all (fun p => p.2 == 0) = true := by
  rcases ae with ⟨e, mode⟩
  rcases mode with _ | _ | label
  · exact h
  · exact h
  · simp only [tssStep]
    by_cases hlen : st.counters.length ≤ label
    · rw [if_pos hlen]
      simp only [List.all_append, h, Bool.true_and]
      by_cases hidx : (valueAt args i).is_indexable
      · have h0 := hz rfl hidx
        simp [hidx, h0]
      · simp [hidx]
    · rw [if_neg hlen]
      by_cases hidx : (valueAt args i).is_indexable
      · rw [if_pos hidx]
        have hlab : label < st.counters.length := by omega
        have hp : (st.counters.getD label (0, 0)).2 = 0 := by
          have hmem : st.counters[label] ∈ st.counters := List.getElem_mem hlab
          have hall := List.all_eq_true.mp h _ hmem
          simp only [beq_iff_eq] at hall
          simp [List.getD, List.getElem?_eq_getElem hlab, hall]
        simp only [hp, Nat.min_zero]
        refine List.all_eq_true.mpr ?_
        intro p hpmem
        rcases List.mem_or_eq_of_mem_set hpmem with hpm | hpe
        · exact List.all_eq_true.mp h _ hpm
        · simp [hpe]
      · rw [if_neg hidx]
        exact h

/-- If every temporally-spread argument reachable from index `i`
onwards is non-indexable or has length 0, building the temporal state
preserves the all-counters-zero property. -/
theorem tssNewAux_counters_zero {F σ : Type} (args : List (RantValue F)) :
    ∀ (exprs : List (ArgumentExpr σ)) (i : Nat) (st : TemporalSpreadState),
    st.counters.all (fun p => p.2 == 0) = true →
    (∀ j ae, exprs.get? j = some ae → ae.spread_mode.isTemporal = true →
      (valueAt args (i + j)).is_indexable = true → (valueAt args (i + j)).len = 0) →
    (tssNewAux args exprs i st).counters.all (fun p => p.2 == 0) = true := by
  intro exprs
  induction exprs with
  | nil =>
    intro i st h _
    exact h
  | cons ae rest ih =>
    intro i st h hz
    simp only [tssNewAux]
    refine ih (i + 1) _ (tssStep_counters_zero args st i ae h ?_) ?_
    · intro ht hidx
      have := hz 0 ae rfl ht (by simpa using hidx)
      simpa using this
    · intro j ae2 hj ht hidx
      have hshift : i + 1 + j = i + (j + 1) := by omega
      have := hz (j + 1) ae2 (by simpa using hj) ht (by rwa [hshift] at hidx)
      rwa [hshift]

/-- Claim C4 (counterexample): in a temporal invocation whose first
temporally-spread argument is the empty list (iteration length 0) but
whose second temporal label has length 3, the spread state is *not*
empty, so a `CallTemporal` intent is queued and the target function is
called (the `CallTemporal` handler, src/runtime/mod.rs line 623, calls
`call_func` unconditionally on every activation) — not called zero
times as the claim requires. -/
theorem c4_mixed_lengths_counterexample :
    (RantValue.list ([] : List (RantValue Unit))).len = 0 ∧
    (TemporalSpreadState.new
        [ArgumentExpr.mk (0 : Nat) (ArgumentSpreadMode.temporal 0),
         ArgumentExpr.mk (1 : Nat) (ArgumentSpreadMode.temporal 1)]
        [RantValue.list ([] : List (RantValue Unit)),
         RantValue.list [RantValue.int 1, RantValue.int 2, RantValue.int 3]]).counters
      = [(0, 0), (0, 3)] ∧
    (TemporalSpreadState.new
        [ArgumentExpr.mk (0 : Nat) (ArgumentSpreadMode.temporal 0),
         ArgumentExpr.mk (1 : Nat) (ArgumentSpreadMode.temporal 1)]
        [RantValue.list ([] : List (RantValue Unit)),
         RantValue.list [RantValue.int 1, RantValue.int 2, RantValue.int 3]]).is_empty
      = false ∧
    (invokeTemporal
        [ArgumentExpr.mk (0 : Nat) (ArgumentSpreadMode.temporal 0),
         ArgumentExpr.mk (1 : Nat) (ArgumentSpreadMode.temporal 1)]
        [RantValue.list ([] : List (RantValue Unit)),
         RantValue.list [RantValue.int 1, RantValue.int 2, RantValue.int 3]]).isSome
      = true :=
  ⟨rfl, rfl, rfl, rfl⟩

/-- Claim C4 (amended): the target function of a temporal invocation is
called zero times when *every* temporally-spread argument is
non-indexable or has iteration length 0 — in particular when the sole
temporally-spread argument is an empty list; `invokeTemporal` then
queues no `CallTemporal` intent.  (A length-0 temporal argument
alongside a different temporal label of nonzero length does not
suppress the calls.) -/
theorem c4_temporal_zero_iterations (F σ : Type)
    (arg_exprs : List (ArgumentExpr σ)) (args : List (RantValue F))
    (hz : ∀ j ae, arg_exprs.get? j = some ae → ae.spread_mode.isTemporal = true →
      (valueAt args j).is_indexable = true → (valueAt args j).len = 0) :
    invokeTemporal arg_exprs args = none := by
  have hc := tssNewAux_counters_zero args arg_exprs 0 ⟨[], []⟩ rfl (by simpa using hz)
  unfold invokeTemporal
  have : (TemporalSpreadState.new arg_exprs args).is_empty = true := by
    unfold TemporalSpreadState.is_empty
    unfold TemporalSpreadState.new at hc ⊢
    simp [hc]
  simp [this]

/-- Claim C4 (witness): a single temporally-spread argument holding the
empty list queues no temporal call. -/
theorem c4_temporal_zero_iterations_witness :
    invokeTemporal [ArgumentExpr.mk (0 : Nat) (ArgumentSpreadMode.temporal 0)]
      [RantValue.list ([] : List (RantValue Unit))] = none :=
  c4_temporal_zero_iterations Unit Nat _ _ (by
    intro j ae hj ht hidx
    match j with
    | 0 =>
      simp only [List.get?] at hj
      cases hj
      simp [valueAt, RantValue.len]
    | j + 1 => simp [List.get?] at hj)

/-! ## Theorems: `Invoke` argument order (claim C6) -/

/-- Claim C6: the VM evaluates function-call argument expressions
right-to-left (the schedule of pushed argument frames is the reverse
of the source order), so that afterwards popping the value stack once
per argument yields the values in left-to-right positional order, with
parametric-spread list arguments expanded in place during the
popping. -/
theorem c6_invoke_arg_order (F σ : Type) (evalf : σ → RantValue F)
    (arg_exprs : List (ArgumentExpr σ)) (stack : List (RantValue F)) :
    invokeEvalSeq arg_exprs 0 = arg_exprs.reverse ∧
    popArgsSpread (arg_exprs.map (fun ae => ae.spread_mode))
        (pushEvalResults (fun ae => evalf ae.expr) (invokeEvalSeq arg_exprs 0) stack) =
      .ok (arg_exprs.flatMap (fun ae => spreadExpand ae.spread_mode (evalf ae.expr)),
           stack) := by
  refine ⟨invokeEvalSeq_zero arg_exprs, ?_⟩
  rw [invokeEvalSeq_zero, pushEvalResults_reverse]
  exact popArgsSpread_maps _ _ _ _

/-! ## Theorems: pipe-value fallback (claim C5) -/

/-- Claim C5: a non-first pipe step whose user arguments never read the
pipe value has an explicit pipe-value expression inserted at argument
position 0 by the parser (`fallback_pipe!` fires when
`calls.len() > 0` and `is_pipeval_used` is unset), and the VM's
argument evaluation for the step then delivers the previous step's
result `pv` as the first positional argument passed to `call_func`. -/
theorem c5_pipe_fallback (F σ : Type) (evalf : σ → RantValue F) (pv : RantValue F)
    (calls_len : Nat) (userArgs : List (PipeArgExpr σ)) (stack : List (RantValue F))
    (hstep : 0 < calls_len) :
    fallback_pipe calls_len false userArgs =
      ⟨PipeExpr.pipeValue, ArgumentSpreadMode.noSpread⟩ :: userArgs ∧
    popArgsSpread ((fallback_pipe calls_len false userArgs).map (fun ae => ae.spread_mode))
        (pushEvalResults (fun ae => evalPipeArg evalf pv ae.expr)
          (invokeEvalSeq (fallback_pipe calls_len false userArgs) 0) stack) =
      .ok (pv :: userArgs.flatMap
            (fun ae => spreadExpand ae.spread_mode (evalPipeArg evalf pv ae.expr)),
           stack) := by
  have hf : fallback_pipe calls_len false userArgs =
      ⟨PipeExpr.pipeValue, ArgumentSpreadMode.noSpread⟩ :: userArgs := by
    simp [fallback_pipe, hstep]
  refine ⟨hf, ?_⟩
  rw [hf, invokeEvalSeq_zero, pushEvalResults_reverse]
  have h := popArgsSpread_maps (fun ae : PipeArgExpr σ => ae.spread_mode)
    (fun ae => evalPipeArg evalf pv ae.expr)
    (⟨PipeExpr.pipeValue, ArgumentSpreadMode.noSpread⟩ :: userArgs) stack
  simpa [spreadExpand, evalPipeArg] using h

/-- Claim C5 (witness): the fallback insertion instantiated at a
second chain step with no user arguments. -/
theorem c5_pipe_fallback_witness :
    fallback_pipe 1 false ([] : List (PipeArgExpr Nat)) =
      [⟨PipeExpr.pipeValue, ArgumentSpreadMode.noSpread⟩] :=
  (c5_pipe_fallback Unit Nat (fun _ => RantValue.empty) (RantValue.int 7) 1 [] []
    (by decide)).1

/-! ## Theorems: `call_func` arity validation (claim C7) -/

/-- Claim C7: `call_func` raises `ArgumentMismatch` exactly when the
argument count violates the signature — for a variadic function, when
fewer than `min_arg_count` arguments are provided; for a non-variadic
function, when the count lies outside `[min_arg_count, params.len()]`
— and it raises no other error; otherwise it proceeds to bind the
parameters. -/
theorem c7_call_func_arity (F σ : Type) (f : RantFunction σ) (args : List (RantValue F)) :
    (call_func f args = .error RuntimeErrorType.argumentMismatch ↔
      ((f.is_variadic = true ∧ args.length < f.min_arg_count) ∨
       (f.is_variadic = false ∧
         (args.length < f.min_arg_count ∨ f.params.length < args.length)))) ∧
    (∀ e, call_func f args = .error e → e = RuntimeErrorType.argumentMismatch) ∧
    (call_func f args ≠ .error RuntimeErrorType.argumentMismatch →
      call_func f args =
        .ok (bindParams
              (if f.is_variadic then
                some (RantValue.list (args.drop f.vararg_start_index))
              else none)
              f.params 0 (args.take f.vararg_start_index))) := by
  unfold call_func
  cases hv : f.is_variadic
  · simp only [hv, Bool.false_eq_true, if_false]
    by_cases h1 : args.length < f.min_arg_count ∨ f.params.length < args.length
    · simp [h1]
    · simp [h1]
  · simp only [hv, if_true]
    by_cases h1 : args.length < f.min_arg_count
    · simp [h1]
    · simp [h1]

/-! ## Theorems: varity diagnostics (claim C8) -/

/-- Every varity may legally follow `Required`; the loop's initial
`last_varity = Required` therefore never constrains the first
parameter. -/
theorem is_valid_order_required (v : Varity) :
    Varity.is_valid_order Varity.required v = true := by
  cases v <;> rfl

/-- Prepending `Required` to a varity list does not change whether it
is chainwise valid. -/
theorem chain'_required_cons (vs : List Varity) :
    List.Chain' (fun a b => Varity.is_valid_order a b = true) (Varity.required :: vs) ↔
      List.Chain' (fun a b => Varity.is_valid_order a b = true) vs := by
  cases vs with
  | nil => simp
  | cons v rest =>
    rw [List.chain'_cons]
    simp [is_valid_order_required]

/-- The varity check loop accepts (reports nothing) iff the chain from
`last` on is valid and the variadic budget is respected. -/
theorem varityDiagsAux_nil_iff :
    ∀ (vs : List Varity) (last : Varity) (sig : Bool),
    (varityDiagsAux last sig vs = [] ↔
      List.Chain' (fun a b => Varity.is_valid_order a b = true) (last :: vs) ∧
      vs.countP (fun v => v.is_variadic) ≤ (if sig then 0 else 1)) := by
  intro vs
  induction vs with
  | nil =>
    intro last sig
    simp [varityDiagsAux]
  | cons v rest ih =>
    intro last sig
    rw [List.chain'_cons]
    cases sig <;> cases hv : v.is_variadic <;>
      by_cases ho : Varity.is_valid_order last v = true <;>
        simp [varityDiagsAux, hv, ho, ih, List.countP_cons, and_assoc]

/-- Reduction of an `if` whose condition is the literal `false = true`. -/
theorem ite_cond_false (a b : Nat) : (if false = true then a else b) = b := rfl

/-- Reduction of an `if` whose condition is the literal `true = true`. -/
theorem ite_cond_true (a b : Nat) : (if true = true then a else b) = a := rfl

/-- A second variadic parameter (counting a pre-existing one when `sig`
is set) is always reported as `MultipleVariadicParams`. -/
theorem varityDiagsAux_multi_mem :
    ∀ (vs : List Varity) (last : Varity) (sig : Bool),
    2 ≤ (if sig then 1 else 0) + vs.countP (fun v => v.is_variadic) →
    VarityDiag.multipleVariadicParams ∈ varityDiagsAux last sig vs := by
  intro vs
  induction vs with
  | nil =>
    intro last sig h
    cases sig <;> simp at h
  | cons v rest ih =>
    intro last sig h
    rw [List.countP_cons] at h
    simp only [varityDiagsAux, List.mem_append]
    cases sig
    · cases hv : v.is_variadic
      · right
        refine ih v false ?_
        simp only [hv, ite_cond_false, ite_cond_true, if_true, if_false] at h ⊢
        omega
      · right
        refine ih v true ?_
        simp only [hv, ite_cond_false, ite_cond_true, if_true, if_false] at h ⊢
        omega
    · cases hv : v.is_variadic
      · right
        refine ih v true ?_
        simp only [hv, ite_cond_false, ite_cond_true, if_true, if_false] at h ⊢
        omega
      · left
        simp [hv]

/-- With the variadic budget respected (so the multiple-variadic branch
never masks the order check), a chain violation is always reported as
an `InvalidParamOrder` diagnostic. -/
theorem varityDiagsAux_invalid_mem :
    ∀ (vs : List Varity) (last : Varity) (sig : Bool),
    vs.countP (fun v => v.is_variadic) ≤ (if sig then 0 else 1) →
    ¬ List.Chain' (fun a b => Varity.is_valid_order a b = true) (last :: vs) →
    ∃ a b, VarityDiag.invalidParamOrder a b ∈ varityDiagsAux last sig vs := by
  intro vs
  induction vs with
  | nil =>
    intro last sig _ hch
    exact absurd (List.chain'_singleton last) hch
  | cons v rest ih =>
    intro last sig hcount hch
    rw [List.chain'_cons] at hch
    rw [List.countP_cons] at hcount
    by_cases hm : (sig && v.is_variadic) = true
    · exfalso
      obtain ⟨hs, hvv⟩ : sig = true ∧ v.is_variadic = true := by simpa using hm
      rw [hs] at hcount
      simp only [hvv, ite_cond_false, ite_cond_true, if_true, if_false] at hcount
      omega
    · by_cases ho : Varity.is_valid_order last v = true
      · have hch2 : ¬ List.Chain' (fun a b => Varity.is_valid_order a b = true) (v :: rest) :=
          fun hc => hch ⟨ho, hc⟩
        have hcount2 : rest.countP (fun v => v.is_variadic) ≤
            (if (sig || v.is_variadic) then 0 else 1) := by
          cases sig <;> cases hvv : v.is_variadic <;>
            simp only [hvv, Bool.false_or, Bool.true_or, Bool.or_false, Bool.or_true,
              ite_cond_false, ite_cond_true, if_true, if_false] at hcount ⊢ <;>
            omega
        obtain ⟨a, b, hmem⟩ := ih v (sig || v.is_variadic) hcount2 hch2
        refine ⟨a, b, ?_⟩
        simp only [varityDiagsAux, List.mem_append]
        right
        exact hmem
      · refine ⟨last, v, ?_⟩
        simp [varityDiagsAux, hm, ho]

/-- Claim C8: a signature's parameter varities produce no varity
diagnostic exactly when every adjacent pair follows the transition
table (`Required→{Required, Optional, VariadicStar, VariadicPlus}`,
`Optional→{Optional, VariadicStar}`, nothing follows a variadic) and at
most one parameter is variadic; a second variadic parameter is always
reported as `MultipleVariadicParams`, and (within the variadic budget)
any other invalid adjacent transition is reported as
`InvalidParamOrder`. -/
theorem c8_varity_diagnostics (vs : List Varity) :
    (varityDiags vs = [] ↔
      List.Chain' (fun a b => Varity.is_valid_order a b = true) vs ∧
      vs.countP (fun v => v.is_variadic) ≤ 1) ∧
    (2 ≤ vs.countP (fun v => v.is_variadic) →
      VarityDiag.multipleVariadicParams ∈ varityDiags vs) ∧
    (vs.countP (fun v => v.is_variadic) ≤ 1 →
      ¬ List.Chain' (fun a b => Varity.is_valid_order a b = true) vs →
      ∃ a b, VarityDiag.invalidParamOrder a b ∈ varityDiags vs) := by
  refine ⟨?_, ?_, ?_⟩
  · rw [varityDiags, varityDiagsAux_nil_iff, chain'_required_cons]
    simp
  · intro h
    refine varityDiagsAux_multi_mem vs Varity.required false ?_
    simpa using h
  · intro h1 h2
    refine varityDiagsAux_invalid_mem vs Varity.required false (by simpa using h1) ?_
    rw [chain'_required_cons]
    exact h2

/-- Claim C8 (witness): a double-star signature is reported as
`MultipleVariadicParams`, and `required; optional` passes cleanly. -/
theorem c8_varity_diagnostics_witness :
    VarityDiag.multipleVariadicParams ∈
      varityDiags [Varity.variadicStar, Varity.variadicStar] ∧
    varityDiags [Varity.required, Varity.optional] = [] :=
  ⟨(c8_varity_diagnostics [Varity.variadicStar, Varity.variadicStar]).2.1 (by decide),
   (c8_varity_diagnostics [Varity.required, Varity.optional]).1.mpr
     ⟨List.chain'_cons.mpr ⟨rfl, List.chain'_singleton Varity.optional⟩, by decide⟩⟩

/-! ## Theorems: the stack-size bound (claim C9) -/

/-- Every reachable call stack respects the `MAX_STACK_SIZE` bound. -/
theorem stackReachable_length_le {σ : Type} :
    ∀ {cs : List (StackFrameM σ)}, StackReachable σ cs → cs.length ≤ MAX_STACK_SIZE := by
  intro cs h
  induction h with
  | init => simp
  | root callee uo fl => simp [push_frame_unchecked, MAX_STACK_SIZE]
  | checked callee uo hr hok ih =>
    rw [push_frame] at hok
    split at hok
    · exact absurd hok (by simp)
    · rename_i hlt
      injection hok with hok
      subst hok
      simp only [List.length_cons]
      omega
  | checkedFlavored callee uo fl hr hok ih =>
    rw [push_frame_flavored] at hok
    split at hok
    · exact absurd hok (by simp)
    · rename_i hlt
      injection hok with hok
      subst hok
      simp only [List.length_cons]
      omega
  | checkedNative uo fl hr hok ih =>
    rw [push_native_call_frame] at hok
    split at hok
    · exact absurd hok (by simp)
    · rename_i hlt
      injection hok with hok
      subst hok
      simp only [List.length_cons]
      omega
  | pop h ih =>
    simp only [List.length_cons] at ih
    omega

/-- Claim C9: each checked frame push (`push_frame`,
`push_frame_flavored`, `push_native_call_frame`) raises `StackOverflow`
when the call stack already holds `MAX_STACK_SIZE` frames (returning
the error without modifying the stack), and every call stack reachable
from the start of a run — where the one unchecked push is applied only
to the empty stack — stays within `MAX_STACK_SIZE` frames. -/
theorem c9_stack_size_bound (σ : Type) :
    (∀ (cs : List (StackFrameM σ)) (callee : σ) (uo : Bool) (fl : StackFrameFlavor),
      cs.length = MAX_STACK_SIZE →
      push_frame cs callee uo = .error RuntimeErrorType.stackOverflow ∧
      push_frame_flavored cs callee uo fl = .error RuntimeErrorType.stackOverflow ∧
      push_native_call_frame cs uo fl = .error RuntimeErrorType.stackOverflow) ∧
    (∀ cs : List (StackFrameM σ), StackReachable σ cs → cs.length ≤ MAX_STACK_SIZE) := by
  constructor
  · intro cs callee uo fl hlen
    refine ⟨?_, ?_, ?_⟩ <;>
      simp [push_frame, push_frame_flavored, push_native_call_frame, hlen]
  · intro cs h
    exact stackReachable_length_le h

/-- Claim C9 (witness): a full stack of 20000 frames overflows on the
next checked push, and the empty stack is within bounds. -/
theorem c9_stack_size_bound_witness :
    push_frame (List.replicate MAX_STACK_SIZE
        (⟨none, true, StackFrameFlavor.original⟩ : StackFrameM Unit)) () true
      = .error RuntimeErrorType.stackOverflow ∧
    ([] : List (StackFrameM Unit)).length ≤ MAX_STACK_SIZE :=
  ⟨((c9_stack_size_bound Unit).1 _ () true StackFrameFlavor.original (by simp)).1,
   (c9_stack_size_bound Unit).2 [] StackReachable.init⟩

end Rant
